import Mathlib

/-
Verification of core behaviours of the python-arango driver.

The development shallowly embeds the parts of the code base that the
properties below are about:

* `arango/api/cursor.py` — the cursor engine (`CursorAPI.create_cursor`),
  modelled as a function from the initial response plus the environment
  (the follow-up responses the server would deliver) to the chronological
  trace of observable events (yields and network requests) together with
  the final outcome of the generator.
* `arango/__init__.py` and `arango/database.py` — the identity caches
  (`_invalidate_database_cache` / `_update_collection_cache` /
  `_update_graph_cache` and the `database` / `collection` / `graph`
  resolvers, which all share one literal shape).
* `arango/api/document.py`, `arango/api/edge.py`, `arango/api/vertex.py` —
  the status-code dispatch of the mutation and get endpoints.
* `arango/connection.py` — URL composition, credential attachment and
  payload serialization of the request router.
-/

namespace PyArango

/-! ## Cursor engine (`arango/api/cursor.py`)

`create_cursor` is a Python generator over an `ArangoResponse`.  The body
fields it touches are `obj["result"]`, `obj["hasMore"]` and `obj["id"]`;
we model the parsed body by those three fields, with `id` an optional
string (`none` models the key being absent, in which case the Python code
would die with a `KeyError` when reading it). -/

/-- Parsed body of a cursor response: the fields read by `create_cursor`. -/
structure CursorObj (α : Type) where
  result : List α
  hasMore : Bool
  id : Option String
  deriving Repr, DecidableEq

/-- An `ArangoResponse` as seen by the cursor engine: HTTP status code and
parsed body. -/
structure CursorResponse (α : Type) where
  status_code : Nat
  obj : CursorObj α
  deriving Repr, DecidableEq

/-- Observable events of one traversal of the generator, in chronological
order: records yielded to the consumer, the assignment of the
`cursor_id` variable (line 30 of `cursor.py`), and the follow-up `PUT`
and final `DELETE` requests with their paths. -/
inductive CEvent (α : Type) where
  | yield : α → CEvent α
  | assignId : String → CEvent α
  | putRequest : String → CEvent α
  | deleteRequest : String → CEvent α
  deriving Repr, DecidableEq

/-- How the traversal of the generator ends. -/
inductive COutcome where
  | ok
  | aqlQueryExecuteError : Nat → COutcome
  | cursorDeleteError : Nat → COutcome
  | keyError : COutcome
  | serverExhausted : COutcome
  deriving Repr, DecidableEq

/-- The `while response.obj["hasMore"]` loop of `create_cursor` together
with the trailing cursor deletion, starting from the current value of the
`cursor_id` variable and the current `response`.  `server` lists the
responses the server would return to the successive `api_put` calls, and
`deleteStatus` is the status code the final `api_delete` would return.
`COutcome.serverExhausted` marks runs that would need one more follow-up
response than the environment provides. -/
def cursorLoop (deleteStatus : Nat) (cursor_id : Option String)
    (response : CursorResponse α) (server : List (CursorResponse α)) :
    List (CEvent α) × COutcome :=
    if response.obj.hasMore then
      match
        (match cursor_id with
         | some c => some ([], c)
         | none =>
           match response.obj.id with
           | some c => some ([CEvent.assignId c], c)
           | none => none) with
      | none => ([], COutcome.keyError)
      | some (evs0, cid) =>
        match server with
        | [] =>
          (evs0 ++ [CEvent.putRequest ("/cursor/" ++ cid)],
           COutcome.serverExhausted)
        | r :: rest =>
          if r.status_code = 200 then
            let tail := cursorLoop deleteStatus (some cid) r rest
            (evs0 ++ CEvent.putRequest ("/cursor/" ++ cid) ::
               (r.obj.result.map CEvent.yield ++ tail.1), tail.2)
          else
            (evs0 ++ [CEvent.putRequest ("/cursor/" ++ cid)],
             COutcome.aqlQueryExecuteError r.status_code)
    else
      match cursor_id with
      | none => ([], COutcome.ok)
      | some cid =>
        ([CEvent.deleteRequest ("/cursor/" ++ cid)],
         if deleteStatus = 404 ∨ deleteStatus = 202 then COutcome.ok
         else COutcome.cursorDeleteError deleteStatus)
termination_by server.length
decreasing_by simp

/-- `CursorAPI.create_cursor`, consumed to exhaustion: first the records of
the initial batch are yielded, then `cursorLoop` runs with `cursor_id`
starting at `None`. -/
def create_cursor (response : CursorResponse α)
    (server : List (CursorResponse α)) (deleteStatus : Nat) :
    List (CEvent α) × COutcome :=
  let tail := cursorLoop deleteStatus none response server
  (response.obj.result.map CEvent.yield ++ tail.1, tail.2)

/-- The records a trace yields, in order. -/
def yields (t : List (CEvent α)) : List α :=
  t.filterMap fun e =>
    match e with
    | CEvent.yield a => some a
    | _ => none

/-- Number of follow-up (`PUT`) requests in a trace. -/
def putCount (t : List (CEvent α)) : Nat :=
  t.countP fun e =>
    match e with
    | CEvent.putRequest _ => true
    | _ => false

/-- Number of cursor-deletion (`DELETE`) requests in a trace. -/
def deleteCount (t : List (CEvent α)) : Nat :=
  t.countP fun e =>
    match e with
    | CEvent.deleteRequest _ => true
    | _ => false

/-- Number of assignments to the `cursor_id` variable in a trace. -/
def assignCount (t : List (CEvent α)) : Nat :=
  t.countP fun e =>
    match e with
    | CEvent.assignId _ => true
    | _ => false

/-- A well-formed environment for a traversal: each follow-up response has
status 200, every response except the last still reports `hasMore`, and
the last one does not.  (`chainOk response []` says the initial response
already reports `hasMore` false.) -/
def chainOk : CursorResponse α → List (CursorResponse α) → Bool
  | response, [] => response.obj.hasMore = false
  | response, r :: rest =>
    response.obj.hasMore && r.status_code == 200 && chainOk r rest

/-- A well-formed prefix of an environment that still has more data: every
listed follow-up response has status 200 and reports `hasMore`, as does
the current response. -/
def chainPre : CursorResponse α → List (CursorResponse α) → Bool
  | response, [] => response.obj.hasMore
  | response, r :: rest =>
    response.obj.hasMore && r.status_code == 200 && chainPre r rest

/-- Events of the page-fetch loop for the captured cursor id `cid`: one
`PUT` request per page followed by that page's records. -/
def pageEvents (cid : String) : List (CursorResponse α) → List (CEvent α)
  | [] => []
  | r :: rest =>
    CEvent.putRequest ("/cursor/" ++ cid) ::
      (r.obj.result.map CEvent.yield ++ pageEvents cid rest)

/-- Outcome of the final cursor deletion as `create_cursor` interprets its
status code: 404 and 202 succeed, anything else raises
`CursorDeleteError`. -/
def deleteOutcome (deleteStatus : Nat) : COutcome :=
  if deleteStatus = 404 ∨ deleteStatus = 202 then COutcome.ok
  else COutcome.cursorDeleteError deleteStatus

/-! ## Identity caches (`arango/__init__.py`, `arango/database.py`)

`Arango._invalidate_database_cache`, `Database._update_collection_cache`
and `Database._update_graph_cache` share one literal shape: fetch the
authoritative name list, delete cached entries whose name left it, and
build a fresh proxy for each name not yet cached.  The resolvers
(`Arango.database`, `Database.collection`, `Database.graph`) likewise
share one shape: return a cache hit directly, otherwise refresh once and
re-check, raising the kind-specific not-found error on a second miss.

A proxy object (`Database(conn, name)` / `Collection(...)` / `Graph(...)`)
holds only its name and the shared connection; we model Python object
identity by stamping each constructed proxy with a fresh `token`, so that
"the cache still holds the same object" is expressible. -/

/-- A cached proxy object: its resource name plus a creation stamp that
models Python object identity. -/
structure Proxy where
  name : String
  token : Nat
  deriving Repr, DecidableEq

/-- The mutable state owned by a cache holder: the name-to-proxy mapping
(as an association list in insertion order, like a Python dict) and the
next free identity stamp. -/
structure CacheState where
  cache : List (String × Proxy)
  nextToken : Nat
  deriving Repr, DecidableEq

/-- Dictionary lookup `name in cache` / `cache[name]`. -/
def cacheGet (name : String) : List (String × Proxy) → Option Proxy
  | [] => none
  | e :: rest => if e.1 = name then some e.2 else cacheGet name rest

/-- The key set of the cache (`set(self._database_cache)` etc.). -/
def cacheKeys (c : List (String × Proxy)) : List String :=
  c.map Prod.fst

/-- The `for name in real - cached: cache[name] = Proxy(conn, name)` loop:
append a freshly constructed proxy for every listed name. -/
def addAll : List String → CacheState → CacheState
  | [], s => s
  | n :: rest, s =>
    addAll rest
      { cache := s.cache ++ [(n, ⟨n, s.nextToken⟩)],
        nextToken := s.nextToken + 1 }

/-- One cache refresh against the authoritative name list `real`
(`_invalidate_database_cache` / `_update_collection_cache` /
`_update_graph_cache`): first delete every cached entry whose name is not
in `real`, then add a fresh proxy for every name of `real` that was not
cached before the refresh. -/
def updateCache (real : List String) (s : CacheState) : CacheState :=
  addAll (real.filter fun n => !((cacheKeys s.cache).contains n))
    { s with cache := s.cache.filter fun e => real.contains e.1 }

/-- Result of a resolve-by-name call: the proxy, or the kind-specific
not-found error carrying the queried name. -/
inductive ResolveResult where
  | found : Proxy → ResolveResult
  | notFound : String → ResolveResult
  deriving Repr, DecidableEq

/-- `Arango.database` / `Database.collection` / `Database.graph`: cache
hit returns the cached proxy, a miss refreshes once and re-checks.  The
last component counts the network round trips performed (each refresh
fetches the authoritative name list exactly once). -/
def resolve (real : List String) (name : String) (s : CacheState) :
    ResolveResult × CacheState × Nat :=
  match cacheGet name s.cache with
  | some p => (ResolveResult.found p, s, 0)
  | none =>
    let s1 := updateCache real s
    match cacheGet name s1.cache with
    | some p => (ResolveResult.found p, s1, 1)
    | none => (ResolveResult.notFound name, s1, 1)

/-! ## Endpoint status-code dispatch (`document.py`, `edge.py`, `vertex.py`)

Each endpoint method issues one request and then branches on
`res.status_code`; we embed everything from that branch on, taking the
response as input.  `HTTP_OK` in `arango/constants.py` is the literal set
`{200, "200", 201, "201", ..., 206, "206"}`; status codes handed to the
branches are integers, so only the integer members are reachable and the
model keeps just those. -/

/-- The integer members of the `HTTP_OK` set of `arango/constants.py`. -/
def HTTP_OK : List Nat :=
  [200, 201, 202, 203, 204, 205, 206]

/-- A response as seen by an endpoint method: status code plus parsed
body. -/
structure ApiResponse (β : Type) where
  status_code : Nat
  obj : β
  deriving Repr, DecidableEq

/-- The exception classes raised by the embedded endpoints (declared in
`arango/exceptions.py`, which only names them; the raising logic lives in
the endpoint methods). -/
inductive ApiErr where
  | DocumentRevisionError
  | DocumentUpdateError
  | DocumentReplaceError
  | DocumentDeleteError
  | DocumentGetError
  | EdgeRevisionError
  | EdgeUpdateError
  | EdgeReplaceError
  | EdgeDeleteError
  | VertexRevisionError
  | VertexUpdateError
  | VertexReplaceError
  | VertexDeleteError
  deriving Repr, DecidableEq

/-- Result of an endpoint call: the returned value, a raised driver
exception, or a Python `KeyError` on a missing body field. -/
inductive CallResult (γ : Type) where
  | ok : γ → CallResult γ
  | raised : ApiErr → CallResult γ
  | keyError : String → CallResult γ
  deriving Repr, DecidableEq

/-- `del obj[k]` on an association-list body: `none` models the
`KeyError` Python raises when the key is absent. -/
def delKey (k : String) : List (String × γ) → Option (List (String × γ))
  | [] => none
  | e :: rest =>
    if e.1 = k then some rest
    else (delKey k rest).map fun r => e :: r

/-- `obj[k]` on an association-list body. -/
def lookupKey (k : String) : List (String × γ) → Option γ
  | [] => none
  | e :: rest => if e.1 = k then some e.2 else lookupKey k rest

/-- `DocumentAPI.update_document` from the response on: 412 raises
`DocumentRevisionError`, any other non-OK status raises
`DocumentUpdateError`, else `del res.obj["error"]; return res.obj`. -/
def update_document_result (res : ApiResponse (List (String × γ))) :
    CallResult (List (String × γ)) :=
  if res.status_code = 412 then CallResult.raised ApiErr.DocumentRevisionError
  else if !(HTTP_OK.contains res.status_code) then
    CallResult.raised ApiErr.DocumentUpdateError
  else
    match delKey "error" res.obj with
    | some obj2 => CallResult.ok obj2
    | none => CallResult.keyError "error"

/-- `DocumentAPI.replace_document` from the response on. -/
def replace_document_result (res : ApiResponse (List (String × γ))) :
    CallResult (List (String × γ)) :=
  if res.status_code = 412 then CallResult.raised ApiErr.DocumentRevisionError
  else if !(HTTP_OK.contains res.status_code) then
    CallResult.raised ApiErr.DocumentReplaceError
  else
    match delKey "error" res.obj with
    | some obj2 => CallResult.ok obj2
    | none => CallResult.keyError "error"

/-- `DocumentAPI.delete_document` from the response on. -/
def delete_document_result (res : ApiResponse (List (String × γ))) :
    CallResult (List (String × γ)) :=
  if res.status_code = 412 then CallResult.raised ApiErr.DocumentRevisionError
  else if !(HTTP_OK.contains res.status_code) then
    CallResult.raised ApiErr.DocumentDeleteError
  else
    match delKey "error" res.obj with
    | some obj2 => CallResult.ok obj2
    | none => CallResult.keyError "error"

/-- `EdgeAPI.update_edge` from the response on: 412 raises
`EdgeRevisionError`, other non-OK raises `EdgeUpdateError`, else
`return res.obj["edge"]`. -/
def update_edge_result (res : ApiResponse (List (String × γ))) :
    CallResult γ :=
  if res.status_code = 412 then CallResult.raised ApiErr.EdgeRevisionError
  else if !(HTTP_OK.contains res.status_code) then
    CallResult.raised ApiErr.EdgeUpdateError
  else
    match lookupKey "edge" res.obj with
    | some v => CallResult.ok v
    | none => CallResult.keyError "edge"

/-- `EdgeAPI.replace_edge` from the response on. -/
def replace_edge_result (res : ApiResponse (List (String × γ))) :
    CallResult γ :=
  if res.status_code = 412 then CallResult.raised ApiErr.EdgeRevisionError
  else if !(HTTP_OK.contains res.status_code) then
    CallResult.raised ApiErr.EdgeReplaceError
  else
    match lookupKey "edge" res.obj with
    | some v => CallResult.ok v
    | none => CallResult.keyError "edge"

/-- `EdgeAPI.delete_edge` from the response on: the method body ends after
the status checks, so a successful call returns Python's implicit
`None`, modelled by `Unit`. -/
def delete_edge_result (res : ApiResponse γ) : CallResult Unit :=
  if res.status_code = 412 then CallResult.raised ApiErr.EdgeRevisionError
  else if !(HTTP_OK.contains res.status_code) then
    CallResult.raised ApiErr.EdgeDeleteError
  else CallResult.ok ()

/-- `VertexAPI.update_vertex` from the response on. -/
def update_vertex_result (res : ApiResponse (List (String × γ))) :
    CallResult γ :=
  if res.status_code = 412 then CallResult.raised ApiErr.VertexRevisionError
  else if !(HTTP_OK.contains res.status_code) then
    CallResult.raised ApiErr.VertexUpdateError
  else
    match lookupKey "vertex" res.obj with
    | some v => CallResult.ok v
    | none => CallResult.keyError "vertex"

/-- `VertexAPI.replace_vertex` from the response on. -/
def replace_vertex_result (res : ApiResponse (List (String × γ))) :
    CallResult γ :=
  if res.status_code = 412 then CallResult.raised ApiErr.VertexRevisionError
  else if !(HTTP_OK.contains res.status_code) then
    CallResult.raised ApiErr.VertexReplaceError
  else
    match lookupKey "vertex" res.obj with
    | some v => CallResult.ok v
    | none => CallResult.keyError "vertex"

/-- `VertexAPI.delete_vertex` from the response on: returns `res.obj`. -/
def delete_vertex_result (res : ApiResponse γ) : CallResult γ :=
  if res.status_code = 412 then CallResult.raised ApiErr.VertexRevisionError
  else if !(HTTP_OK.contains res.status_code) then
    CallResult.raised ApiErr.VertexDeleteError
  else CallResult.ok res.obj

/-- `DocumentAPI.get_document` from the response on: 412 or 304 raises
`DocumentRevisionError`, 404 returns `None`, other non-OK raises
`DocumentGetError`, else the body is returned. -/
def get_document_result (res : ApiResponse γ) : CallResult (Option γ) :=
  if res.status_code = 412 ∨ res.status_code = 304 then
    CallResult.raised ApiErr.DocumentRevisionError
  else if res.status_code = 404 then CallResult.ok none
  else if !(HTTP_OK.contains res.status_code) then
    CallResult.raised ApiErr.DocumentGetError
  else CallResult.ok (some res.obj)

/-! ## Request router (`arango/connection.py`)

`ArangoConnection` holds the immutable connection configuration.  Each
`api_*` method builds the URL from `url_prefix` (modelled here as
`url_base`, the format string of lines 58–63), attaches
`auth=(self.username, self.password)`, and, for the body-carrying verbs,
sends `data if is_string(data) else json.dumps(data)`.  Python values
that can appear as payloads are modelled by `PyData`, and `json.dumps`
with its default separators by `dumps`. -/

/-- The configuration fields of `ArangoConnection`. -/
structure ArangoConnection where
  protocol : String
  host : String
  port : Nat
  username : String
  password : String
  deriving Repr, DecidableEq

/-- `ArangoConnection.url_prefix`: the string
`"{protocol}://{host}:{port}/_db/{db}/_api"` with the configuration and
the database name substituted in. -/
def url_base (conn : ArangoConnection) (database_name : String) : String :=
  conn.protocol ++ "://" ++ conn.host ++ ":" ++ toString conn.port ++
    "/_db/" ++ database_name ++ "/_api"

/-- A Python value that can be passed as a request payload. -/
inductive PyData where
  | pyNone : PyData
  | str : String → PyData
  | num : Int → PyData
  | boolean : Bool → PyData
  | list : List PyData → PyData
  | dict : List (String × PyData) → PyData
  deriving Repr

/-- `arango.utils.is_string`. -/
def is_string : PyData → Bool
  | PyData.str _ => true
  | _ => false

mutual

/-- `json.dumps` with its default separators (string escaping is not
modelled; payload strings are assumed escape-free). -/
def dumps : PyData → String
  | PyData.pyNone => "null"
  | PyData.str s => "\"" ++ s ++ "\""
  | PyData.num n => toString n
  | PyData.boolean b => if b then "true" else "false"
  | PyData.list xs => "[" ++ dumpsList xs ++ "]"
  | PyData.dict xs => "\x7b" ++ dumpsDict xs ++ "\x7d"

/-- Comma-separated serialization of a JSON array body. -/
def dumpsList : List PyData → String
  | [] => ""
  | [x] => dumps x
  | x :: rest => dumps x ++ ", " ++ dumpsList rest

/-- Comma-separated serialization of a JSON object body. -/
def dumpsDict : List (String × PyData) → String
  | [] => ""
  | [e] => "\"" ++ e.1 ++ "\": " ++ dumps e.2
  | e :: rest => "\"" ++ e.1 ++ "\": " ++ dumps e.2 ++ ", " ++ dumpsDict rest

end

/-- The body actually sent for a body-carrying verb:
`data if is_string(data) else json.dumps(data)`. -/
def requestBody : PyData → String
  | PyData.str s => s
  | d => dumps d

/-- The request handed to the transport client: verb, full URL, body and
basic-auth pair.  `body` is `none` for the bodiless verbs
(HEAD/GET/DELETE), which pass no `data` argument to the client.  (Query
parameters and headers are forwarded untouched and are not modelled.) -/
structure HttpRequest where
  method : String
  url : String
  body : Option String
  auth : String × String
  deriving Repr, DecidableEq

/-- `ArangoConnection.api_head`. -/
def api_head (conn : ArangoConnection) (database_name api_path : String) :
    HttpRequest :=
  { method := "head", url := url_base conn database_name ++ api_path,
    body := none, auth := (conn.username, conn.password) }

/-- `ArangoConnection.api_get`. -/
def api_get (conn : ArangoConnection) (database_name api_path : String) :
    HttpRequest :=
  { method := "get", url := url_base conn database_name ++ api_path,
    body := none, auth := (conn.username, conn.password) }

/-- `ArangoConnection.api_put`. -/
def api_put (conn : ArangoConnection) (database_name api_path : String)
    (data : PyData) : HttpRequest :=
  { method := "put", url := url_base conn database_name ++ api_path,
    body := some (requestBody data), auth := (conn.username, conn.password) }

/-- `ArangoConnection.api_post`. -/
def api_post (conn : ArangoConnection) (database_name api_path : String)
    (data : PyData) : HttpRequest :=
  { method := "post", url := url_base conn database_name ++ api_path,
    body := some (requestBody data), auth := (conn.username, conn.password) }

/-- `ArangoConnection.api_patch`. -/
def api_patch (conn : ArangoConnection) (database_name api_path : String)
    (data : PyData) : HttpRequest :=
  { method := "patch", url := url_base conn database_name ++ api_path,
    body := some (requestBody data), auth := (conn.username, conn.password) }

/-- `ArangoConnection.api_delete`. -/
def api_delete (conn : ArangoConnection) (database_name api_path : String) :
    HttpRequest :=
  { method := "delete", url := url_base conn database_name ++ api_path,
    body := none, auth := (conn.username, conn.password) }

/-! ## Concrete fixtures

The spec's own worked scenario: initial response
`{result: [1, 2], hasMore: true, id: "C1"}` answered by one continuation
`{result: [3], hasMore: false}`, plus a single-page response and a
non-200 continuation used by the error-path witnesses. -/

/-- Initial response of the spec scenario. -/
def wInit : CursorResponse Nat := ⟨201, ⟨[1, 2], true, some "C1"⟩⟩

/-- Continuation response of the spec scenario. -/
def wNext : CursorResponse Nat := ⟨200, ⟨[3], false, none⟩⟩

/-- A single-page initial response (`hasMore` false). -/
def wDone : CursorResponse Nat := ⟨201, ⟨[7, 8], false, none⟩⟩

/-- A continuation answered with 202, which is not the protocol's single
success code 200. -/
def wBad : CursorResponse Nat := ⟨202, ⟨[9], true, none⟩⟩

/-! ## Trace observers: basic lemmas -/

@[simp] theorem yields_nil : yields ([] : List (CEvent α)) = [] := rfl

@[simp] theorem yields_cons_yield (a : α) (t : List (CEvent α)) :
    yields (CEvent.yield a :: t) = a :: yields t := rfl

@[simp] theorem yields_cons_assign (s : String) (t : List (CEvent α)) :
    yields (CEvent.assignId s :: t) = yields t := rfl

@[simp] theorem yields_cons_put (s : String) (t : List (CEvent α)) :
    yields (CEvent.putRequest s :: t) = yields t := rfl

@[simp] theorem yields_cons_delete (s : String) (t : List (CEvent α)) :
    yields (CEvent.deleteRequest s :: t) = yields t := rfl

@[simp] theorem yields_append (s t : List (CEvent α)) :
    yields (s ++ t) = yields s ++ yields t := by
  simp [yields, List.filterMap_append]

@[simp] theorem yields_map_yield (l : List α) :
    yields (l.map CEvent.yield) = l := by
  induction l with
  | nil => rfl
  | cons a rest ih => simpa using ih

@[simp] theorem putCount_nil : putCount ([] : List (CEvent α)) = 0 := rfl

@[simp] theorem putCount_cons_yield (a : α) (t : List (CEvent α)) :
    putCount (CEvent.yield a :: t) = putCount t := by
  simp [putCount, List.countP_cons]

@[simp] theorem putCount_cons_assign (s : String) (t : List (CEvent α)) :
    putCount (CEvent.assignId s :: t) = putCount t := by
  simp [putCount, List.countP_cons]

@[simp] theorem putCount_cons_put (s : String) (t : List (CEvent α)) :
    putCount (CEvent.putRequest s :: t) = putCount t + 1 := by
  simp [putCount, List.countP_cons]

@[simp] theorem putCount_cons_delete (s : String) (t : List (CEvent α)) :
    putCount (CEvent.deleteRequest s :: t) = putCount t := by
  simp [putCount, List.countP_cons]

@[simp] theorem putCount_append (s t : List (CEvent α)) :
    putCount (s ++ t) = putCount s + putCount t := by
  simp [putCount, List.countP_append]

@[simp] theorem putCount_map_yield (l : List α) :
    putCount (l.map CEvent.yield) = 0 := by
  induction l with
  | nil => rfl
  | cons a rest ih => simpa using ih

@[simp] theorem deleteCount_nil : deleteCount ([] : List (CEvent α)) = 0 := rfl

@[simp] theorem deleteCount_cons_yield (a : α) (t : List (CEvent α)) :
    deleteCount (CEvent.yield a :: t) = deleteCount t := by
  simp [deleteCount, List.countP_cons]

@[simp] theorem deleteCount_cons_assign (s : String) (t : List (CEvent α)) :
    deleteCount (CEvent.assignId s :: t) = deleteCount t := by
  simp [deleteCount, List.countP_cons]

@[simp] theorem deleteCount_cons_put (s : String) (t : List (CEvent α)) :
    deleteCount (CEvent.putRequest s :: t) = deleteCount t := by
  simp [deleteCount, List.countP_cons]

@[simp] theorem deleteCount_cons_delete (s : String) (t : List (CEvent α)) :
    deleteCount (CEvent.deleteRequest s :: t) = deleteCount t + 1 := by
  simp [deleteCount, List.countP_cons]

@[simp] theorem deleteCount_append (s t : List (CEvent α)) :
    deleteCount (s ++ t) = deleteCount s + deleteCount t := by
  simp [deleteCount, List.countP_append]

@[simp] theorem deleteCount_map_yield (l : List α) :
    deleteCount (l.map CEvent.yield) = 0 := by
  induction l with
  | nil => rfl
  | cons a rest ih => simpa using ih

@[simp] theorem assignCount_nil : assignCount ([] : List (CEvent α)) = 0 := rfl

@[simp] theorem assignCount_cons_yield (a : α) (t : List (CEvent α)) :
    assignCount (CEvent.yield a :: t) = assignCount t := by
  simp [assignCount, List.countP_cons]

@[simp] theorem assignCount_cons_assign (s : String) (t : List (CEvent α)) :
    assignCount (CEvent.assignId s :: t) = assignCount t + 1 := by
  simp [assignCount, List.countP_cons]

@[simp] theorem assignCount_cons_put (s : String) (t : List (CEvent α)) :
    assignCount (CEvent.putRequest s :: t) = assignCount t := by
  simp [assignCount, List.countP_cons]

@[simp] theorem assignCount_cons_delete (s : String) (t : List (CEvent α)) :
    assignCount (CEvent.deleteRequest s :: t) = assignCount t := by
  simp [assignCount, List.countP_cons]

@[simp] theorem assignCount_append (s t : List (CEvent α)) :
    assignCount (s ++ t) = assignCount s + assignCount t := by
  simp [assignCount, List.countP_append]

@[simp] theorem assignCount_map_yield (l : List α) :
    assignCount (l.map CEvent.yield) = 0 := by
  induction l with
  | nil => rfl
  | cons a rest ih => simpa using ih

@[simp] theorem yields_pageEvents (cid : String)
    (server : List (CursorResponse α)) :
    yields (pageEvents cid server) = (server.map fun r => r.obj.result).flatten := by
  induction server with
  | nil => rfl
  | cons r rest ih => simp [pageEvents, ih]

@[simp] theorem putCount_pageEvents (cid : String)
    (server : List (CursorResponse α)) :
    putCount (pageEvents cid server) = server.length := by
  induction server with
  | nil => rfl
  | cons r rest ih => simp [pageEvents, ih]

@[simp] theorem deleteCount_pageEvents (cid : String)
    (server : List (CursorResponse α)) :
    deleteCount (pageEvents cid server) = 0 := by
  induction server with
  | nil => rfl
  | cons r rest ih => simp [pageEvents, ih]

@[simp] theorem assignCount_pageEvents (cid : String)
    (server : List (CursorResponse α)) :
    assignCount (pageEvents cid server) = 0 := by
  induction server with
  | nil => rfl
  | cons r rest ih => simp [pageEvents, ih]

/-! ## Cursor loop characterization -/

theorem chainOk_nil_hasMore (response : CursorResponse α)
    (h : chainOk response [] = true) : response.obj.hasMore = false := by
  simpa [chainOk] using h

theorem chainOk_cons (response r : CursorResponse α)
    (rest : List (CursorResponse α))
    (h : chainOk response (r :: rest) = true) :
    response.obj.hasMore = true ∧ r.status_code = 200 ∧ chainOk r rest = true := by
  simp only [chainOk, Bool.and_eq_true, beq_iff_eq] at h
  exact ⟨h.1.1, h.1.2, h.2⟩

theorem chainPre_hasMore (response : CursorResponse α)
    (good : List (CursorResponse α)) (h : chainPre response good = true) :
    response.obj.hasMore = true := by
  cases good with
  | nil => simpa [chainPre] using h
  | cons r rest =>
    simp only [chainPre, Bool.and_eq_true, beq_iff_eq] at h
    exact h.1.1

theorem chainPre_cons (response r : CursorResponse α)
    (rest : List (CursorResponse α))
    (h : chainPre response (r :: rest) = true) :
    response.obj.hasMore = true ∧ r.status_code = 200 ∧ chainPre r rest = true := by
  simp only [chainPre, Bool.and_eq_true, beq_iff_eq] at h
  exact ⟨h.1.1, h.1.2, h.2⟩

/-- With the cursor id already captured and a well-formed environment, the
loop emits one `PUT` per page followed by that page's records, then the
single `DELETE`, and ends with the deletion outcome. -/
theorem cursorLoop_some_ok (ds : Nat) (cid : String) :
    ∀ (server : List (CursorResponse α)) (response : CursorResponse α),
      chainOk response server = true →
      cursorLoop ds (some cid) response server =
        (pageEvents cid server ++ [CEvent.deleteRequest ("/cursor/" ++ cid)],
         deleteOutcome ds) := by
  intro server
  induction server with
  | nil =>
    intro response h
    have hm := chainOk_nil_hasMore response h
    simp [cursorLoop, hm, pageEvents, deleteOutcome]
  | cons r rest ih =>
    intro response h
    obtain ⟨hm, hs, hc⟩ := chainOk_cons response r rest h
    simp [cursorLoop, hm, hs, ih r hc, pageEvents]

/-- Full characterization of a traversal whose initial response still has
more data, in a well-formed environment. -/
theorem create_cursor_char_more (response : CursorResponse α)
    (server : List (CursorResponse α)) (ds : Nat) (cid : String)
    (hchain : chainOk response server = true)
    (hm : response.obj.hasMore = true)
    (hid : response.obj.id = some cid) :
    create_cursor response server ds =
      (response.obj.result.map CEvent.yield ++
         CEvent.assignId cid ::
           (pageEvents cid server ++
             [CEvent.deleteRequest ("/cursor/" ++ cid)]),
       deleteOutcome ds) := by
  cases server with
  | nil =>
    have := chainOk_nil_hasMore response hchain
    rw [hm] at this
    exact absurd this (by simp)
  | cons r rest =>
    obtain ⟨hm2, hs, hc⟩ := chainOk_cons response r rest hchain
    have hrest := cursorLoop_some_ok ds cid rest r hc
    simp [create_cursor, cursorLoop, hm, hid, hs, hrest, pageEvents]

/-- Full characterization of a traversal whose initial response already
reports `hasMore` false: only the initial records are yielded, nothing
else happens. -/
theorem create_cursor_char_done (response : CursorResponse α)
    (server : List (CursorResponse α)) (ds : Nat)
    (hm : response.obj.hasMore = false) :
    create_cursor response server ds =
      (response.obj.result.map CEvent.yield, COutcome.ok) := by
  simp [create_cursor, cursorLoop, hm]

/-- With the cursor id already captured, a continuation answered with a
non-200 status aborts the loop right after that `PUT`: no record of the
failing page is emitted and no deletion happens. -/
theorem cursorLoop_some_bad (ds : Nat) (cid : String) :
    ∀ (good : List (CursorResponse α)) (response : CursorResponse α)
      (bad : CursorResponse α) (rest : List (CursorResponse α)),
      chainPre response good = true → bad.status_code ≠ 200 →
      cursorLoop ds (some cid) response (good ++ bad :: rest) =
        (pageEvents cid good ++ [CEvent.putRequest ("/cursor/" ++ cid)],
         COutcome.aqlQueryExecuteError bad.status_code) := by
  intro good
  induction good with
  | nil =>
    intro response bad rest hpre hbad
    have hm : response.obj.hasMore = true := chainPre_hasMore response [] hpre
    simp [cursorLoop, hm, hbad, pageEvents]
  | cons g gs ih =>
    intro response bad rest hpre hbad
    obtain ⟨hm, hs, hc⟩ := chainPre_cons response g gs hpre
    simp [cursorLoop, hm, hs, ih g bad rest hc hbad, pageEvents]

/-- Full characterization of a traversal aborted by a bad continuation
status. -/
theorem create_cursor_char_bad (response : CursorResponse α)
    (good : List (CursorResponse α)) (bad : CursorResponse α)
    (rest : List (CursorResponse α)) (ds : Nat) (cid : String)
    (hpre : chainPre response good = true)
    (hid : response.obj.id = some cid)
    (hbad : bad.status_code ≠ 200) :
    create_cursor response (good ++ bad :: rest) ds =
      (response.obj.result.map CEvent.yield ++
         CEvent.assignId cid ::
           (pageEvents cid good ++ [CEvent.putRequest ("/cursor/" ++ cid)]),
       COutcome.aqlQueryExecuteError bad.status_code) := by
  have hm : response.obj.hasMore = true := chainPre_hasMore response good hpre
  cases good with
  | nil =>
    simp [create_cursor, cursorLoop, hm, hid, hbad, pageEvents]
  | cons g gs =>
    obtain ⟨hm2, hs, hc⟩ := chainPre_cons response g gs hpre
    have hrest := cursorLoop_some_bad ds cid gs g bad rest hc hbad
    simp [create_cursor, cursorLoop, hm, hid, hs, hrest, pageEvents]

theorem assign_not_mem_pageEvents (c cid : String)
    (server : List (CursorResponse α)) :
    CEvent.assignId c ∉ pageEvents cid server := by
  induction server with
  | nil => simp [pageEvents]
  | cons r rest ih => simp [pageEvents, ih]

theorem hasMore_false_of_not_true (response : CursorResponse α)
    (h : ¬response.obj.hasMore = true) : response.obj.hasMore = false := by
  cases hb : response.obj.hasMore
  · rfl
  · exact absurd hb h

/-! ## Claim theorems: cursor engine -/

/-- Claim C1: for every result set split across N server-side pages, the
sequence produced by consuming `create_cursor` to exhaustion equals the
concatenation of the `result` batches of the initial response and every
continuation response, in server-delivered order; for N = 1 (initial
`hasMore` false) no follow-up request is made. -/
theorem create_cursor_pagination_completeness
    (response : CursorResponse α) (server : List (CursorResponse α)) (ds : Nat)
    (hchain : chainOk response server = true)
    (hid : response.obj.hasMore = true → response.obj.id.isSome = true) :
    yields (create_cursor response server ds).1 =
      response.obj.result ++ (server.map fun r => r.obj.result).flatten ∧
    (response.obj.hasMore = false →
      putCount (create_cursor response server ds).1 = 0 ∧
      deleteCount (create_cursor response server ds).1 = 0) := by
  by_cases hm : response.obj.hasMore = true
  · obtain ⟨cid, hid2⟩ := Option.isSome_iff_exists.mp (hid hm)
    rw [create_cursor_char_more response server ds cid hchain hm hid2]
    refine ⟨by simp, fun hf => ?_⟩
    rw [hf] at hm
    exact absurd hm (by simp)
  · have hm2 := hasMore_false_of_not_true response hm
    have hserver : server = [] := by
      cases server with
      | nil => rfl
      | cons r rest => exact absurd (chainOk_cons response r rest hchain).1 hm
    subst hserver
    rw [create_cursor_char_done response [] ds hm2]
    simp

/-- Witness for C1 at the spec scenario: the two pages `[1, 2]` and `[3]`
are delivered as `[1, 2, 3]`, and a one-page traversal issues no
request. -/
theorem create_cursor_pagination_completeness_witness :
    yields (create_cursor wInit [wNext] 202).1 = [1, 2, 3] ∧
    putCount (create_cursor wDone [] 202).1 = 0 ∧
    deleteCount (create_cursor wDone [] 202).1 = 0 := by
  have h1 := create_cursor_pagination_completeness wInit [wNext] 202
    (by decide) (by decide)
  have h2 := create_cursor_pagination_completeness wDone [] 202
    (by decide) (by decide)
  exact ⟨by simpa [wInit, wNext] using h1.1, (h2.2 (by decide)).1,
    (h2.2 (by decide)).2⟩

/-- Claim C2: a traversal that captured a cursor identifier issues exactly
one deletion request, after the last page's records were yielded and as
the final event; a traversal whose initial response has `hasMore` false
issues zero follow-up and zero deletion requests. -/
theorem create_cursor_single_cleanup
    (response : CursorResponse α) (server : List (CursorResponse α)) (ds : Nat)
    (hchain : chainOk response server = true)
    (hid : response.obj.hasMore = true → response.obj.id.isSome = true) :
    (response.obj.hasMore = true →
      ∃ cid t0,
        response.obj.id = some cid ∧
        (create_cursor response server ds).1 =
          t0 ++ [CEvent.deleteRequest ("/cursor/" ++ cid)] ∧
        deleteCount t0 = 0 ∧
        yields t0 =
          response.obj.result ++ (server.map fun r => r.obj.result).flatten) ∧
    (response.obj.hasMore = false →
      putCount (create_cursor response server ds).1 = 0 ∧
      deleteCount (create_cursor response server ds).1 = 0) := by
  constructor
  · intro hm
    obtain ⟨cid, hid2⟩ := Option.isSome_iff_exists.mp (hid hm)
    refine ⟨cid,
      response.obj.result.map CEvent.yield ++
        CEvent.assignId cid :: pageEvents cid server, hid2, ?_, ?_, ?_⟩
    · rw [create_cursor_char_more response server ds cid hchain hm hid2]
      simp
    · simp
    · simp
  · intro hm2
    have hserver : server = [] := by
      cases server with
      | nil => rfl
      | cons r rest =>
        have h1 := (chainOk_cons response r rest hchain).1
        rw [hm2] at h1
        exact absurd h1 (by simp)
    subst hserver
    rw [create_cursor_char_done response [] ds hm2]
    simp

/-- Witness for C2 at the spec scenario: the deletion request to
`/cursor/C1` is the final event, and the single-page traversal performs
no request at all. -/
theorem create_cursor_single_cleanup_witness :
    (∃ cid t0,
      wInit.obj.id = some cid ∧
      (create_cursor wInit [wNext] 202).1 =
        t0 ++ [CEvent.deleteRequest ("/cursor/" ++ cid)] ∧
      deleteCount t0 = 0 ∧
      yields t0 = wInit.obj.result ++
        (([wNext]).map fun r => r.obj.result).flatten) ∧
    putCount (create_cursor wDone [] 404).1 = 0 ∧
    deleteCount (create_cursor wDone [] 404).1 = 0 := by
  have h1 := create_cursor_single_cleanup wInit [wNext] 202
    (by decide) (by decide)
  have h2 := create_cursor_single_cleanup wDone [] 404
    (by decide) (by decide)
  exact ⟨h1.1 (by decide), (h2.2 (by decide)).1, (h2.2 (by decide)).2⟩

/-- Claim C3: when the final cursor deletion is answered 404 or 202 the
traversal ends normally; any other deletion status ends it with
`CursorDeleteError`, and in either case every record of every batch has
already been yielded (and the single deletion already issued). -/
theorem create_cursor_cleanup_status
    (response : CursorResponse α) (server : List (CursorResponse α))
    (ds : Nat) (cid : String)
    (hchain : chainOk response server = true)
    (hm : response.obj.hasMore = true)
    (hid : response.obj.id = some cid) :
    ((ds = 404 ∨ ds = 202) →
      (create_cursor response server ds).2 = COutcome.ok) ∧
    (¬(ds = 404 ∨ ds = 202) →
      (create_cursor response server ds).2 = COutcome.cursorDeleteError ds) ∧
    yields (create_cursor response server ds).1 =
      response.obj.result ++ (server.map fun r => r.obj.result).flatten ∧
    deleteCount (create_cursor response server ds).1 = 1 := by
  rw [create_cursor_char_more response server ds cid hchain hm hid]
  refine ⟨fun h => by simp [deleteOutcome, h], fun h => ?_, by simp, by simp⟩
  simp only [deleteOutcome, if_neg h]

/-- Witness for C3: deletion status 202 and 404 succeed, status 200 raises
`CursorDeleteError` after `[1, 2, 3]` was fully yielded. -/
theorem create_cursor_cleanup_status_witness :
    (create_cursor wInit [wNext] 202).2 = COutcome.ok ∧
    (create_cursor wInit [wNext] 404).2 = COutcome.ok ∧
    (create_cursor wInit [wNext] 200).2 = COutcome.cursorDeleteError 200 ∧
    yields (create_cursor wInit [wNext] 200).1 = [1, 2, 3] ∧
    deleteCount (create_cursor wInit [wNext] 200).1 = 1 := by
  have h1 := create_cursor_cleanup_status wInit [wNext] 202 "C1"
    (by decide) (by decide) (by decide)
  have h2 := create_cursor_cleanup_status wInit [wNext] 404 "C1"
    (by decide) (by decide) (by decide)
  have h3 := create_cursor_cleanup_status wInit [wNext] 200 "C1"
    (by decide) (by decide) (by decide)
  refine ⟨h1.1 (by decide), h2.1 (by decide), h3.2.1 (by decide), ?_,
    h3.2.2.2⟩
  simpa [wInit, wNext] using h3.2.2.1

/-- Claim C4: a continuation answered with any status other than exactly
200 (202 included) makes `create_cursor` raise `AQLQueryExecuteError`
right after that request: no record of the failing page is yielded, no
further request and no deletion happens. -/
theorem create_cursor_bad_page_aborts
    (response : CursorResponse α) (good : List (CursorResponse α))
    (bad : CursorResponse α) (rest : List (CursorResponse α))
    (ds : Nat) (cid : String)
    (hpre : chainPre response good = true)
    (hid : response.obj.id = some cid)
    (hbad : bad.status_code ≠ 200) :
    (create_cursor response (good ++ bad :: rest) ds).2 =
      COutcome.aqlQueryExecuteError bad.status_code ∧
    yields (create_cursor response (good ++ bad :: rest) ds).1 =
      response.obj.result ++ (good.map fun r => r.obj.result).flatten ∧
    putCount (create_cursor response (good ++ bad :: rest) ds).1 =
      good.length + 1 ∧
    deleteCount (create_cursor response (good ++ bad :: rest) ds).1 = 0 := by
  rw [create_cursor_char_bad response good bad rest ds cid hpre hid hbad]
  exact ⟨rfl, by simp, by simp, by simp⟩

/-- Witness for C4: the first continuation answered 202 aborts the
traversal with `AQLQueryExecuteError 202`; only the initial batch was
yielded and nothing was deleted. -/
theorem create_cursor_bad_page_aborts_witness :
    (create_cursor wInit [wBad] 202).2 = COutcome.aqlQueryExecuteError 202 ∧
    yields (create_cursor wInit [wBad] 202).1 = [1, 2] ∧
    putCount (create_cursor wInit [wBad] 202).1 = 1 ∧
    deleteCount (create_cursor wInit [wBad] 202).1 = 0 := by
  have h := create_cursor_bad_page_aborts wInit [] wBad [] 202 "C1"
    (by decide) (by decide) (by decide)
  exact ⟨h.1, by simpa [wInit] using h.2.1, by simpa using h.2.2.1, h.2.2.2⟩

/-- Claim C5: the `cursor_id` variable is assigned at most once, always
with the (non-None) identifier carried by the first response, and once a
response reports `hasMore` false the only further request is the single
final deletion (present exactly when an identifier was captured). -/
theorem create_cursor_cursor_id_invariant
    (response : CursorResponse α) (server : List (CursorResponse α)) (ds : Nat)
    (hchain : chainOk response server = true)
    (hid : response.obj.hasMore = true → response.obj.id.isSome = true) :
    assignCount (create_cursor response server ds).1 ≤ 1 ∧
    (∀ c, CEvent.assignId c ∈ (create_cursor response server ds).1 →
      response.obj.id = some c) ∧
    (response.obj.hasMore = false →
      putCount (create_cursor response server ds).1 = 0 ∧
      deleteCount (create_cursor response server ds).1 = 0) ∧
    (response.obj.hasMore = true →
      ∃ cid t0, response.obj.id = some cid ∧
        (create_cursor response server ds).1 =
          t0 ++ [CEvent.deleteRequest ("/cursor/" ++ cid)] ∧
        putCount t0 = server.length ∧ deleteCount t0 = 0) := by
  by_cases hm : response.obj.hasMore = true
  · obtain ⟨cid, hid2⟩ := Option.isSome_iff_exists.mp (hid hm)
    rw [create_cursor_char_more response server ds cid hchain hm hid2]
    refine ⟨by simp, fun c hc => ?_, fun hf => ?_, fun _ => ?_⟩
    · simp only [List.mem_append, List.mem_cons, List.mem_map,
        List.mem_singleton] at hc
      rcases hc with h | h | h | h
      · obtain ⟨a, _, ha⟩ := h
        exact absurd ha (by simp)
      · obtain rfl : c = cid := by simpa using h
        exact hid2
      · exact absurd h (assign_not_mem_pageEvents c cid server)
      · exact absurd h (by simp)
    · rw [hf] at hm
      exact absurd hm (by simp)
    · exact ⟨cid,
        response.obj.result.map CEvent.yield ++
          CEvent.assignId cid :: pageEvents cid server, hid2, by simp,
        by simp, by simp⟩
  · have hm2 := hasMore_false_of_not_true response hm
    have hserver : server = [] := by
      cases server with
      | nil => rfl
      | cons r rest => exact absurd (chainOk_cons response r rest hchain).1 hm
    subst hserver
    rw [create_cursor_char_done response [] ds hm2]
    refine ⟨by simp, fun c hc => ?_, fun _ => by simp, fun hf => ?_⟩
    · simp only [List.mem_map] at hc
      obtain ⟨a, _, ha⟩ := hc
      exact absurd ha (by simp)
    · rw [hf] at hm2
      exact absurd hm2 (by simp)

/-- Witness for C5 at the spec scenario: exactly one assignment, carrying
`"C1"` from the initial response, one continuation, and the deletion as
the final event. -/
theorem create_cursor_cursor_id_invariant_witness :
    assignCount (create_cursor wInit [wNext] 202).1 ≤ 1 ∧
    (∃ cid t0, wInit.obj.id = some cid ∧
      (create_cursor wInit [wNext] 202).1 =
        t0 ++ [CEvent.deleteRequest ("/cursor/" ++ cid)] ∧
      putCount t0 = 1 ∧ deleteCount t0 = 0) := by
  have h := create_cursor_cursor_id_invariant wInit [wNext] 202
    (by decide) (by decide)
  exact ⟨h.1, by simpa using h.2.2.2 (by decide)⟩

/-! ## Identity cache lemmas -/

@[simp] theorem cacheKeys_nil : cacheKeys [] = [] := rfl

@[simp] theorem cacheKeys_cons (e : String × Proxy)
    (c : List (String × Proxy)) :
    cacheKeys (e :: c) = e.1 :: cacheKeys c := rfl

@[simp] theorem cacheKeys_append (c d : List (String × Proxy)) :
    cacheKeys (c ++ d) = cacheKeys c ++ cacheKeys d := by
  simp [cacheKeys]

theorem filter_contains_eq (real : List String)
    (c : List (String × Proxy)) :
    (c.filter fun e => real.contains e.1) =
      (c.filter fun e => decide (e.1 ∈ real)) := by
  apply List.filter_congr
  intro e _
  simp [List.contains, List.elem_eq_mem]

theorem filter_not_contains_eq (keys real : List String) :
    (real.filter fun n => !(keys.contains n)) =
      (real.filter fun n => decide (n ∉ keys)) := by
  apply List.filter_congr
  intro a _
  simp [List.contains, List.elem_eq_mem]

theorem cacheGet_eq_none_iff (n : String) (c : List (String × Proxy)) :
    cacheGet n c = none ↔ n ∉ cacheKeys c := by
  induction c with
  | nil => simp [cacheGet]
  | cons e rest ih =>
    by_cases he : e.1 = n
    · simp [cacheGet, he]
    · have hne : ¬n = e.1 := fun h => he h.symm
      simp [cacheGet, he, ih, hne]

theorem cacheGet_append_left (n : String) (c d : List (String × Proxy))
    (p : Proxy) (h : cacheGet n c = some p) :
    cacheGet n (c ++ d) = some p := by
  induction c with
  | nil => simp [cacheGet] at h
  | cons e rest ih =>
    by_cases he : e.1 = n
    · simp only [cacheGet, he, if_pos] at h
      simpa [cacheGet, he] using h
    · simp only [cacheGet, he, if_false] at h
      simpa [cacheGet, he] using ih h

theorem cacheGet_append_right (n : String) (c d : List (String × Proxy))
    (h : cacheGet n c = none) :
    cacheGet n (c ++ d) = cacheGet n d := by
  induction c with
  | nil => simp
  | cons e rest ih =>
    by_cases he : e.1 = n
    · simp [cacheGet, he] at h
    · simp only [cacheGet, he, if_false] at h
      simpa [cacheGet, he] using ih h

theorem cacheGet_filter_mem_none (n : String) (q : String × Proxy → Bool)
    (c : List (String × Proxy)) (h : cacheGet n c = none) :
    cacheGet n (c.filter q) = none := by
  induction c with
  | nil => simp [cacheGet]
  | cons e rest ih =>
    by_cases he : e.1 = n
    · simp [cacheGet, he] at h
    · simp only [cacheGet, he, if_false] at h
      by_cases hq : q e = true
      · rw [List.filter_cons, if_pos hq, cacheGet, if_neg he]
        exact ih h
      · rw [List.filter_cons, if_neg hq]
        exact ih h

theorem cacheGet_filter_key_out (real : List String) (n : String)
    (c : List (String × Proxy)) (h : n ∉ real) :
    cacheGet n (c.filter fun e => real.contains e.1) = none := by
  rw [filter_contains_eq]
  induction c with
  | nil => rfl
  | cons e rest ih =>
    by_cases he : e.1 = n
    · rw [List.filter_cons, if_neg (by simp [he, h])]
      exact ih
    · by_cases hq : e.1 ∈ real
      · rw [List.filter_cons, if_pos (by simp [hq]), cacheGet, if_neg he]
        exact ih
      · rw [List.filter_cons, if_neg (by simp [hq])]
        exact ih

theorem cacheGet_filter_key_in (real : List String) (n : String)
    (c : List (String × Proxy)) (h : n ∈ real) :
    cacheGet n (c.filter fun e => real.contains e.1) = cacheGet n c := by
  rw [filter_contains_eq]
  induction c with
  | nil => rfl
  | cons e rest ih =>
    by_cases he : e.1 = n
    · rw [List.filter_cons, if_pos (by simp [he, h])]
      simp [cacheGet, he]
    · by_cases hq : e.1 ∈ real
      · rw [List.filter_cons, if_pos (by simp [hq]), cacheGet, if_neg he,
          cacheGet, if_neg he]
        exact ih
      · rw [List.filter_cons, if_neg (by simp [hq]), cacheGet, if_neg he]
        exact ih

theorem addAll_keys (names : List String) :
    ∀ s : CacheState,
      cacheKeys (addAll names s).cache = cacheKeys s.cache ++ names := by
  induction names with
  | nil => intro s; simp [addAll]
  | cons m rest ih =>
    intro s
    rw [addAll, ih]
    simp

theorem addAll_get_not_mem (names : List String) (n : String)
    (hn : n ∉ names) :
    ∀ s : CacheState,
      cacheGet n (addAll names s).cache = cacheGet n s.cache := by
  induction names with
  | nil => intro s; rfl
  | cons m rest ih =>
    intro s
    have hm : ¬m = n := fun h => hn (h ▸ List.mem_cons_self m rest)
    have hrest : n ∉ rest := fun h => hn (List.mem_cons_of_mem m h)
    rw [addAll, ih hrest]
    show cacheGet n (s.cache ++ [(m, ⟨m, s.nextToken⟩)]) = cacheGet n s.cache
    cases hc : cacheGet n s.cache with
    | some p => exact cacheGet_append_left n s.cache _ p hc
    | none =>
      rw [cacheGet_append_right n s.cache _ hc]
      simp [cacheGet, hm]

theorem addAll_preserves_some (names : List String) (n : String) (p : Proxy) :
    ∀ s : CacheState, cacheGet n s.cache = some p →
      cacheGet n (addAll names s).cache = some p := by
  induction names with
  | nil => intro s h; exact h
  | cons m rest ih =>
    intro s h
    rw [addAll]
    exact ih _ (cacheGet_append_left n s.cache _ p h)

theorem addAll_get_new (names : List String) (n : String) (hn : n ∈ names) :
    ∀ s : CacheState, cacheGet n s.cache = none →
      ∃ p, cacheGet n (addAll names s).cache = some p ∧ p.name = n := by
  induction names with
  | nil => exact absurd hn (List.not_mem_nil n)
  | cons m rest ih =>
    intro s h
    by_cases hm : m = n
    · subst hm
      have hsome : cacheGet m (s.cache ++ [(m, ⟨m, s.nextToken⟩)]) =
          some ⟨m, s.nextToken⟩ := by
        rw [cacheGet_append_right m s.cache _ h]
        simp [cacheGet]
      rw [addAll]
      exact ⟨⟨m, s.nextToken⟩, addAll_preserves_some rest m _ _ hsome, rfl⟩
    · have hrest : n ∈ rest := by
        cases List.mem_cons.mp hn with
        | inl h2 => exact absurd h2.symm hm
        | inr h2 => exact h2
      have hnone : cacheGet n (s.cache ++ [(m, ⟨m, s.nextToken⟩)]) = none := by
        rw [cacheGet_append_right n s.cache _ h]
        simp [cacheGet, hm]
      rw [addAll]
      exact ih hrest _ hnone

theorem addAll_mem_mono (names : List String) (e : String × Proxy) :
    ∀ s : CacheState, e ∈ s.cache → e ∈ (addAll names s).cache := by
  induction names with
  | nil => intro s h; exact h
  | cons m rest ih =>
    intro s h
    rw [addAll]
    exact ih _ (List.mem_append_left _ h)

theorem addAll_mem_charact (names : List String) (e : String × Proxy) :
    ∀ s : CacheState, e ∈ (addAll names s).cache →
      e ∈ s.cache ∨ e.1 ∈ names := by
  induction names with
  | nil => intro s h; exact Or.inl h
  | cons m rest ih =>
    intro s h
    rw [addAll] at h
    cases ih _ h with
    | inl h2 =>
      cases List.mem_append.mp h2 with
      | inl h3 => exact Or.inl h3
      | inr h3 =>
        have he : e.1 = m := by
          simp only [List.mem_singleton] at h3
          rw [h3]
        exact Or.inr (he ▸ List.mem_cons_self m rest)
    | inr h2 => exact Or.inr (List.mem_cons_of_mem m h2)

theorem mem_keys_of_cacheGet_some (n : String) (c : List (String × Proxy))
    (p : Proxy) (h : cacheGet n c = some p) : n ∈ cacheKeys c := by
  by_contra hn
  rw [(cacheGet_eq_none_iff n c).mpr hn] at h
  exact absurd h (by simp)

theorem updateCache_get_out (real : List String) (n : String) (s : CacheState)
    (h : n ∉ real) :
    cacheGet n (updateCache real s).cache = none := by
  have hnotadd :
      n ∉ real.filter fun m => !((cacheKeys s.cache).contains m) :=
    fun hmem => h (List.mem_of_mem_filter hmem)
  rw [updateCache, addAll_get_not_mem _ n hnotadd]
  exact cacheGet_filter_key_out real n s.cache h

theorem updateCache_get_new (real : List String) (n : String) (s : CacheState)
    (hin : n ∈ real) (hmiss : cacheGet n s.cache = none) :
    ∃ p, cacheGet n (updateCache real s).cache = some p ∧ p.name = n := by
  have hkeys : n ∉ cacheKeys s.cache := (cacheGet_eq_none_iff n s.cache).mp hmiss
  have htoadd : n ∈ real.filter fun m => !((cacheKeys s.cache).contains m) :=
    List.mem_filter.mpr ⟨hin, by simp [List.contains, List.elem_eq_mem, hkeys]⟩
  have hkept :
      cacheGet n (s.cache.filter fun e => real.contains e.1) = none :=
    cacheGet_filter_mem_none n _ s.cache hmiss
  rw [updateCache]
  exact addAll_get_new _ n htoadd _ hkept

theorem updateCache_all_in_real (real : List String) (s : CacheState) :
    ∀ e ∈ (updateCache real s).cache, e.1 ∈ real := by
  intro e he
  rw [updateCache] at he
  cases addAll_mem_charact _ e _ he with
  | inl h2 =>
    have := (List.mem_filter.mp h2).2
    simpa [List.contains, List.elem_eq_mem] using this
  | inr h2 => exact List.mem_of_mem_filter h2

theorem updateCache_entry_origin (real : List String) (s : CacheState) :
    ∀ e ∈ (updateCache real s).cache,
      e ∈ s.cache ∨ e.1 ∉ cacheKeys s.cache := by
  intro e he
  rw [updateCache] at he
  cases addAll_mem_charact _ e _ he with
  | inl h2 => exact Or.inl (List.mem_of_mem_filter h2)
  | inr h2 =>
    have := (List.mem_filter.mp h2).2
    exact Or.inr (by simpa [List.contains, List.elem_eq_mem] using this)

theorem updateCache_keeps_entry (real : List String) (s : CacheState) :
    ∀ e ∈ s.cache, e.1 ∈ real → e ∈ (updateCache real s).cache := by
  intro e he hin
  rw [updateCache]
  apply addAll_mem_mono
  exact List.mem_filter.mpr ⟨he, by simp [List.contains, List.elem_eq_mem, hin]⟩

theorem mem_keys_updateCache (real : List String) (s : CacheState)
    (n : String) (hn : n ∈ real) :
    n ∈ cacheKeys (updateCache real s).cache := by
  rw [updateCache, addAll_keys]
  cases hc : cacheGet n s.cache with
  | none =>
    have hkeys : n ∉ cacheKeys s.cache := (cacheGet_eq_none_iff n s.cache).mp hc
    refine List.mem_append.mpr (Or.inr ?_)
    exact List.mem_filter.mpr
      ⟨hn, by simp [List.contains, List.elem_eq_mem, hkeys]⟩
  | some p =>
    have hsome :
        cacheGet n (s.cache.filter fun e => real.contains e.1) = some p := by
      rw [cacheGet_filter_key_in real n s.cache hn]
      exact hc
    exact List.mem_append.mpr (Or.inl (mem_keys_of_cacheGet_some n _ p hsome))

theorem updateCache_stable (real : List String) (s1 : CacheState)
    (hall : ∀ e ∈ s1.cache, e.1 ∈ real)
    (hkeys : ∀ n ∈ real, n ∈ cacheKeys s1.cache) :
    (updateCache real s1).cache = s1.cache := by
  have hfilter : (s1.cache.filter fun e => real.contains e.1) = s1.cache :=
    List.filter_eq_self.mpr fun e he => by
      simp [List.contains, List.elem_eq_mem, hall e he]
  have htoadd :
      (real.filter fun n => !((cacheKeys s1.cache).contains n)) = [] :=
    List.filter_eq_nil_iff.mpr fun n hn => by
      simp [List.contains, List.elem_eq_mem, hkeys n hn]
  rw [updateCache, hfilter, htoadd]
  rfl

/-! ## Claim theorems: identity cache -/

/-- Claim C6: a resolve-by-name hit returns the cached proxy with zero
network calls; a miss refreshes exactly once and re-checks, returning a
proxy exactly when the name is in the authoritative set and raising the
not-found error naming the resource otherwise; no resolve performs more
than one refresh. -/
theorem resolve_cache_semantics (real : List String) (name : String)
    (s : CacheState) :
    (∀ p, cacheGet name s.cache = some p →
      resolve real name s = (ResolveResult.found p, s, 0)) ∧
    (resolve real name s).2.2 ≤ 1 ∧
    (cacheGet name s.cache = none →
      (resolve real name s).2.2 = 1 ∧
      (name ∈ real →
        ∃ p, (resolve real name s).1 = ResolveResult.found p ∧
          p.name = name) ∧
      (name ∉ real →
        (resolve real name s).1 = ResolveResult.notFound name)) := by
  refine ⟨fun p hp => by simp [resolve, hp], ?_, fun hmiss => ?_⟩
  · cases hc : cacheGet name s.cache with
    | some p => simp [resolve, hc]
    | none =>
      cases hc2 : cacheGet name (updateCache real s).cache with
      | some p => simp [resolve, hc, hc2]
      | none => simp [resolve, hc, hc2]
  · refine ⟨?_, fun hin => ?_, fun hout => ?_⟩
    · cases hc2 : cacheGet name (updateCache real s).cache with
      | some p => simp [resolve, hmiss, hc2]
      | none => simp [resolve, hmiss, hc2]
    · obtain ⟨p, hp, hname⟩ := updateCache_get_new real name s hin hmiss
      exact ⟨p, by simp [resolve, hmiss, hp], hname⟩
    · have h0 := updateCache_get_out real name s hout
      simp [resolve, hmiss, h0]

/-- Witness for C6: a hit on a one-entry cache returns the cached proxy
without touching the state; on an empty cache, resolving a name the
server reports succeeds after one refresh and resolving an unknown name
fails with the not-found error carrying that name. -/
theorem resolve_cache_semantics_witness :
    resolve ["foo", "bar"] "foo" ⟨[("foo", ⟨"foo", 0⟩)], 1⟩ =
      (ResolveResult.found ⟨"foo", 0⟩, ⟨[("foo", ⟨"foo", 0⟩)], 1⟩, 0) ∧
    (resolve ["foo", "bar"] "foo" ⟨[], 0⟩).2.2 = 1 ∧
    (∃ p, (resolve ["foo", "bar"] "foo" ⟨[], 0⟩).1 = ResolveResult.found p ∧
      p.name = "foo") ∧
    (resolve ["foo", "bar"] "baz" ⟨[], 0⟩).1 =
      ResolveResult.notFound "baz" := by
  refine ⟨(resolve_cache_semantics ["foo", "bar"] "foo"
      ⟨[("foo", ⟨"foo", 0⟩)], 1⟩).1 ⟨"foo", 0⟩ (by decide), ?_, ?_, ?_⟩
  · exact ((resolve_cache_semantics ["foo", "bar"] "foo" ⟨[], 0⟩).2.2
      (by decide)).1
  · exact ((resolve_cache_semantics ["foo", "bar"] "foo" ⟨[], 0⟩).2.2
      (by decide)).2.1 (by decide)
  · exact ((resolve_cache_semantics ["foo", "bar"] "baz" ⟨[], 0⟩).2.2
      (by decide)).2.2 (by decide)

/-- Claim C7: refreshing twice with the same authoritative set leaves the
cache list — keys and proxy objects alike — exactly as after the first
refresh; a single refresh keeps every entry whose name is still
authoritative untouched, and every entry after a refresh is either an
original entry or a new one for a previously uncached name. -/
theorem updateCache_idempotent (real : List String) (s : CacheState) :
    (updateCache real (updateCache real s)).cache =
      (updateCache real s).cache ∧
    (∀ e ∈ s.cache, e.1 ∈ real → e ∈ (updateCache real s).cache) ∧
    (∀ e ∈ (updateCache real s).cache, e.1 ∈ real) ∧
    (∀ e ∈ (updateCache real s).cache,
      e ∈ s.cache ∨ e.1 ∉ cacheKeys s.cache) := by
  exact ⟨updateCache_stable real _ (updateCache_all_in_real real s)
      (fun n hn => mem_keys_updateCache real s n hn),
    updateCache_keeps_entry real s,
    updateCache_all_in_real real s,
    updateCache_entry_origin real s⟩

/-- Witness for C7: with authoritative set `{a, b}` and a cache holding
`a` (still authoritative) and `c` (gone), the second refresh is a no-op
and the proxy cached for `a` survives the first refresh unrebuilt. -/
theorem updateCache_idempotent_witness :
    (updateCache ["a", "b"]
        (updateCache ["a", "b"] ⟨[("a", ⟨"a", 0⟩), ("c", ⟨"c", 1⟩)], 2⟩)).cache =
      (updateCache ["a", "b"] ⟨[("a", ⟨"a", 0⟩), ("c", ⟨"c", 1⟩)], 2⟩).cache ∧
    ("a", (⟨"a", 0⟩ : Proxy)) ∈
      (updateCache ["a", "b"] ⟨[("a", ⟨"a", 0⟩), ("c", ⟨"c", 1⟩)], 2⟩).cache := by
  have h := updateCache_idempotent ["a", "b"]
    ⟨[("a", ⟨"a", 0⟩), ("c", ⟨"c", 1⟩)], 2⟩
  exact ⟨h.1, h.2.1 ("a", ⟨"a", 0⟩) (by decide) (by decide)⟩

/-! ## Claim theorems: endpoint status dispatch -/

/-- Claim C8: every mutation endpoint — update, replace and delete for
documents, edges and vertices — answers HTTP status 412 with its
kind-specific revision-conflict error, never the endpoint's generic
error. -/
theorem revision_conflict_on_412 {γ : Type} (obj : List (String × γ))
    (v : γ) :
    update_document_result ⟨412, obj⟩ =
      CallResult.raised ApiErr.DocumentRevisionError ∧
    replace_document_result ⟨412, obj⟩ =
      CallResult.raised ApiErr.DocumentRevisionError ∧
    delete_document_result ⟨412, obj⟩ =
      CallResult.raised ApiErr.DocumentRevisionError ∧
    update_edge_result ⟨412, obj⟩ =
      CallResult.raised ApiErr.EdgeRevisionError ∧
    replace_edge_result ⟨412, obj⟩ =
      CallResult.raised ApiErr.EdgeRevisionError ∧
    delete_edge_result (⟨412, v⟩ : ApiResponse γ) =
      CallResult.raised ApiErr.EdgeRevisionError ∧
    update_vertex_result ⟨412, obj⟩ =
      CallResult.raised ApiErr.VertexRevisionError ∧
    replace_vertex_result ⟨412, obj⟩ =
      CallResult.raised ApiErr.VertexRevisionError ∧
    delete_vertex_result (⟨412, v⟩ : ApiResponse γ) =
      CallResult.raised ApiErr.VertexRevisionError := by
  exact ⟨rfl, rfl, rfl, rfl, rfl, rfl, rfl, rfl, rfl⟩

/-- Claim C10: `get_document` returns `None` on 404, raises
`DocumentRevisionError` on 412 or 304, raises `DocumentGetError` on any
other status outside `HTTP_OK`, and returns the document body only for
statuses inside `HTTP_OK`. -/
theorem get_document_status_dispatch {γ : Type} (res : ApiResponse γ) :
    (res.status_code = 404 → get_document_result res = CallResult.ok none) ∧
    (res.status_code = 412 ∨ res.status_code = 304 →
      get_document_result res =
        CallResult.raised ApiErr.DocumentRevisionError) ∧
    (res.status_code ∉ HTTP_OK → res.status_code ≠ 404 →
      res.status_code ≠ 412 → res.status_code ≠ 304 →
      get_document_result res = CallResult.raised ApiErr.DocumentGetError) ∧
    (∀ v, get_document_result res = CallResult.ok (some v) →
      res.status_code ∈ HTTP_OK ∧ v = res.obj) := by
  refine ⟨fun h404 => ?_, fun hrev => ?_, fun hko h1 h2 h3 => ?_,
    fun v hv => ?_⟩
  · have hne : ¬(res.status_code = 412 ∨ res.status_code = 304) := by
      rw [h404]; simp
    simp [get_document_result, hne, h404]
  · simp [get_document_result, hrev]
  · have hne : ¬(res.status_code = 412 ∨ res.status_code = 304) := by
      simp [h2, h3]
    simp [get_document_result, hne, h1, hko]
  · by_cases hrev : res.status_code = 412 ∨ res.status_code = 304
    · simp [get_document_result, hrev] at hv
    · by_cases h404 : res.status_code = 404
      · simp [get_document_result, hrev, h404] at hv
      · by_cases hmem : res.status_code ∈ HTTP_OK
        · have := hv
          simp [get_document_result, hrev, h404, hmem] at this
          exact ⟨hmem, this.symm⟩
        · simp [get_document_result, hrev, h404, hmem] at hv

/-- Witness for C10 at statuses 404, 412, 304, 500 and 200. -/
theorem get_document_status_dispatch_witness :
    get_document_result (⟨404, 0⟩ : ApiResponse Nat) = CallResult.ok none ∧
    get_document_result (⟨412, 0⟩ : ApiResponse Nat) =
      CallResult.raised ApiErr.DocumentRevisionError ∧
    get_document_result (⟨304, 0⟩ : ApiResponse Nat) =
      CallResult.raised ApiErr.DocumentRevisionError ∧
    get_document_result (⟨500, 0⟩ : ApiResponse Nat) =
      CallResult.raised ApiErr.DocumentGetError ∧
    ((200 : Nat) ∈ HTTP_OK ∧ (7 : Nat) = (⟨200, 7⟩ : ApiResponse Nat).obj) := by
  refine ⟨(get_document_status_dispatch ⟨404, 0⟩).1 (by decide),
    (get_document_status_dispatch ⟨412, 0⟩).2.1 (by decide),
    (get_document_status_dispatch ⟨304, 0⟩).2.1 (by decide),
    (get_document_status_dispatch ⟨500, 0⟩).2.2.1 (by decide) (by decide)
      (by decide) (by decide),
    (get_document_status_dispatch (⟨200, 7⟩ : ApiResponse Nat)).2.2.2 7
      (by decide)⟩

/-! ## Claim theorems: request router -/

/-- Claim C9: every routed request — HEAD, GET, PUT, POST, PATCH and
DELETE alike — targets
`{protocol}://{host}:{port}/_db/{database_name}/_api` followed by the API
path and carries the configured basic-auth pair; for the body-carrying
verbs (PUT/POST/PATCH) a string payload is sent unchanged while any
non-string payload — `None` included — is serialized as JSON. -/
theorem api_request_shape (conn : ArangoConnection) (db path : String)
    (data : PyData) :
    ((api_head conn db path).url =
      conn.protocol ++ "://" ++ conn.host ++ ":" ++ toString conn.port ++
        "/_db/" ++ db ++ "/_api" ++ path ∧
     (api_get conn db path).url = (api_head conn db path).url ∧
     (api_delete conn db path).url = (api_head conn db path).url ∧
     (api_post conn db path data).url = (api_head conn db path).url ∧
     (api_put conn db path data).url = (api_head conn db path).url ∧
     (api_patch conn db path data).url = (api_head conn db path).url) ∧
    ((api_head conn db path).auth = (conn.username, conn.password) ∧
     (api_get conn db path).auth = (conn.username, conn.password) ∧
     (api_delete conn db path).auth = (conn.username, conn.password) ∧
     (api_post conn db path data).auth = (conn.username, conn.password) ∧
     (api_put conn db path data).auth = (conn.username, conn.password) ∧
     (api_patch conn db path data).auth = (conn.username, conn.password)) ∧
    (∀ s2, data = PyData.str s2 →
      (api_post conn db path data).body = some s2 ∧
      (api_put conn db path data).body = some s2 ∧
      (api_patch conn db path data).body = some s2) ∧
    (is_string data = false →
      (api_post conn db path data).body = some (dumps data) ∧
      (api_put conn db path data).body = some (dumps data) ∧
      (api_patch conn db path data).body = some (dumps data)) ∧
    (api_post conn db path PyData.pyNone).body = some "null" := by
  refine ⟨⟨rfl, rfl, rfl, rfl, rfl, rfl⟩, ⟨rfl, rfl, rfl, rfl, rfl, rfl⟩,
    fun s2 hs => ?_, fun hns => ?_, rfl⟩
  · subst hs
    exact ⟨rfl, rfl, rfl⟩
  · cases data with
    | pyNone => exact ⟨rfl, rfl, rfl⟩
    | str s2 => simp [is_string] at hns
    | num n => exact ⟨rfl, rfl, rfl⟩
    | boolean b => exact ⟨rfl, rfl, rfl⟩
    | list xs => exact ⟨rfl, rfl, rfl⟩
    | dict xs => exact ⟨rfl, rfl, rfl⟩

/-- Witness for C9 with the default connection configuration: a string
payload passes through unchanged, a dict payload is JSON-serialized, the
URL is the documented composition for head, get and delete too, and all
verbs carry the configured credentials. -/
theorem api_request_shape_witness :
    (api_post ⟨"http", "localhost", 8529, "root", ""⟩ "_system" "/cursor"
        (PyData.str "abc")).body = some "abc" ∧
    (api_post ⟨"http", "localhost", 8529, "root", ""⟩ "_system" "/cursor"
        (PyData.dict [("name", PyData.str "db1")])).body =
      some (dumps (PyData.dict [("name", PyData.str "db1")])) ∧
    (api_head ⟨"http", "localhost", 8529, "root", ""⟩ "_system"
        "/version").url =
      "http" ++ "://" ++ "localhost" ++ ":" ++ toString (8529 : Nat) ++
        "/_db/" ++ "_system" ++ "/_api" ++ "/version" ∧
    (api_get ⟨"http", "localhost", 8529, "root", ""⟩ "_system"
        "/version").url =
      (api_head ⟨"http", "localhost", 8529, "root", ""⟩ "_system"
        "/version").url ∧
    (api_delete ⟨"http", "localhost", 8529, "root", ""⟩ "_system"
        "/version").url =
      (api_head ⟨"http", "localhost", 8529, "root", ""⟩ "_system"
        "/version").url ∧
    (api_delete ⟨"http", "localhost", 8529, "root", ""⟩ "_system"
        "/version").auth = ("root", "") := by
  refine ⟨((api_request_shape ⟨"http", "localhost", 8529, "root", ""⟩
      "_system" "/cursor" (PyData.str "abc")).2.2.1 "abc" rfl).1,
    ((api_request_shape ⟨"http", "localhost", 8529, "root", ""⟩
      "_system" "/cursor"
      (PyData.dict [("name", PyData.str "db1")])).2.2.2.1 rfl).1,
    (api_request_shape ⟨"http", "localhost", 8529, "root", ""⟩
      "_system" "/version" PyData.pyNone).1.1,
    (api_request_shape ⟨"http", "localhost", 8529, "root", ""⟩
      "_system" "/version" PyData.pyNone).1.2.1,
    (api_request_shape ⟨"http", "localhost", 8529, "root", ""⟩
      "_system" "/version" PyData.pyNone).1.2.2.1,
    (api_request_shape ⟨"http", "localhost", 8529, "root", ""⟩
      "_system" "/version" PyData.pyNone).2.1.2.2.1⟩

end PyArango
